import Mathlib

/-!
Verification development for the game-search aggregation backend
(`src/main.py`).  Python strings are modelled as `List Char`; each source
adapter is a pure function of the (already normalized) query together with
an `Except`-valued upstream outcome, where `Except.error ()` stands for any
upstream failure caught by the adapter's `try/except` (network error,
non-success status, timeout, or unparsable response).
-/

/-- Python strings, modelled as lists of characters. -/
abbrev PyStr := List Char

/-- The Python whitespace class: characters matched by `\s` in a `str`
regular expression / `str.strip()` (codepoints per `str.isspace`). -/
def pyIsSpace (c : Char) : Bool :=
  let n := c.toNat
  decide ((9 ≤ n ∧ n ≤ 13) ∨ n = 32 ∨ (28 ≤ n ∧ n ≤ 31) ∨ n = 133 ∨ n = 160 ∨
    n = 5760 ∨ (8192 ≤ n ∧ n ≤ 8202) ∨ n = 8232 ∨ n = 8233 ∨ n = 8239 ∨
    n = 8287 ∨ n = 12288)

/-- Python `s.strip(chars)`: drop characters satisfying `p` from both ends. -/
def stripBoth (p : Char → Bool) (s : PyStr) : PyStr :=
  ((s.dropWhile p).reverse.dropWhile p).reverse

/-- The effect of `re.sub(r"\s+", " ", q)`: every maximal run of whitespace
characters is replaced by a single space. -/
def collapseWs : PyStr → PyStr
  | [] => []
  | [c] => if pyIsSpace c then [' '] else [c]
  | a :: b :: rest =>
    if pyIsSpace a && pyIsSpace b then collapseWs (b :: rest)
    else (if pyIsSpace a then ' ' else a) :: collapseWs (b :: rest)

/-- `normalize_query` from `src/main.py`:
`re.sub(r"\s+", " ", q).strip()`. -/
def normalize_query (q : PyStr) : PyStr :=
  stripBoth pyIsSpace (collapseWs q)

/-- Python `query.lower() in title.lower()`: case-insensitive substring
test (ASCII lowering, as in `Char.toLower`). -/
def containsCI (query title : PyStr) : Bool :=
  decide ((query.map Char.toLower) <:+: (title.map Char.toLower))

/-- Truthiness of an optional Python string: `None` and `""` are falsy. -/
def pyTruthyOptStr : Option PyStr → Bool
  | none => false
  | some s => !s.isEmpty

/-- Uppercase hexadecimal digit, as produced by `urllib.parse.quote`. -/
def hexDigitUpper (n : Nat) : Char :=
  if n < 10 then Char.ofNat (48 + n) else Char.ofNat (55 + n)

/-- UTF-8 byte sequence of a character (used by `urllib.parse.quote`). -/
def utf8Bytes (c : Char) : List Nat :=
  let n := c.toNat
  if n < 128 then [n]
  else if n < 2048 then [192 + n / 64, 128 + n % 64]
  else if n < 65536 then [224 + n / 4096, 128 + (n / 64) % 64, 128 + n % 64]
  else [240 + n / 262144, 128 + (n / 4096) % 64, 128 + (n / 64) % 64, 128 + n % 64]

/-- Characters `urllib.parse.quote` leaves unescaped (default `safe='/'`). -/
def quoteSafeChar (c : Char) : Bool :=
  c.isAlpha || c.isDigit || c = '_' || c = '.' || c = '-' || c = '~' || c = '/'

/-- Percent-encoding of one character. -/
def quoteChar (c : Char) : PyStr :=
  if quoteSafeChar c then [c]
  else (utf8Bytes c).foldr (fun b acc => '%' :: hexDigitUpper (b / 16) :: hexDigitUpper (b % 16) :: acc) []

/-- `urllib.parse.quote` on a string. -/
def quote : PyStr → PyStr
  | [] => []
  | c :: rest => quoteChar c ++ quote rest

/-- One normalized game listing: `{"title": ..., "url": ...}`. -/
structure Hit where
  title : PyStr
  url : PyStr
deriving DecidableEq

/-- The per-source result dictionary built by each adapter.  The `preview`
key is absent until `search_games` adds it; absence is modelled as `[]`. -/
structure SourceResult where
  source : PyStr
  more_url : PyStr
  hits : List Hit
  total_hits : Nat
  preview : List Hit
deriving DecidableEq

/-- `limited` from `src/main.py`: `items[:limit]`. -/
def limited (items : List Hit) (limit : Nat) : List Hit :=
  items.take limit

/-- One entry of the Epic `promotionalOffers` outer list; its own
`promotionalOffers` field is the inner list, whose element contents are
irrelevant to the code (only emptiness is tested). -/
structure PromoEntry where
  promotionalOffers : List Unit
deriving DecidableEq

/-- The Epic `promotions` dictionary. A `None`-valued or missing
`promotionalOffers` key is coalesced to `[]` by the code (`or []`). -/
structure Promotions where
  promotionalOffers : List PromoEntry
deriving DecidableEq

/-- One element of the Epic catalog.  `promotions = none` covers a missing,
`None`, or empty (falsy) promotions dictionary; `title` holds the raw
string (`el.get("title", "")`). -/
structure EpicElement where
  title : PyStr
  promotions : Option Promotions
  productSlug : Option PyStr
  urlSlug : Option PyStr
deriving DecidableEq

/-- The `is_free_now` computation of `search_epic_free_games`: promotions
present and truthy, the outer `promotionalOffers` list non-empty, and its
FIRST entry's inner `promotionalOffers` list truthy. -/
def epicIsFreeNow (el : EpicElement) : Bool :=
  match el.promotions with
  | none => false
  | some p =>
    match p.promotionalOffers with
    | [] => false
    | entry :: _ => !entry.promotionalOffers.isEmpty

/-- The link construction of `search_epic_free_games`: `productSlug` if
truthy, else `urlSlug` if truthy (each stripped of surrounding `/`), else
the generic free-games listing URL. -/
def epicLink (el : EpicElement) : PyStr :=
  let ps := if pyTruthyOptStr el.productSlug then el.productSlug else el.urlSlug
  if pyTruthyOptStr ps then
    "https://store.epicgames.com/en-US/p/".toList ++ stripBoth (fun c => c == '/') (ps.getD [])
  else
    "https://store.epicgames.com/free-games".toList

/-- The filtering loop of `search_epic_free_games` over the catalog
elements. -/
def epicHitsLoop (query : PyStr) : List EpicElement → List Hit
  | [] => []
  | el :: rest =>
    let title := stripBoth pyIsSpace el.title
    if !title.isEmpty && containsCI query title && epicIsFreeNow el then
      ⟨title, epicLink el⟩ :: epicHitsLoop query rest
    else
      epicHitsLoop query rest

/-- The hit condition of the Epic loop, as a standalone predicate. -/
def epicCodeHitCond (query : PyStr) (el : EpicElement) : Bool :=
  let title := stripBoth pyIsSpace el.title
  !title.isEmpty && containsCI query title && epicIsFreeNow el

/-- The hit built from an Epic element. -/
def epicToHit (el : EpicElement) : Hit :=
  ⟨stripBoth pyIsSpace el.title, epicLink el⟩

/-- `search_epic_free_games` from `src/main.py`. -/
def search_epic_free_games (query : PyStr) (upstream : Except Unit (List EpicElement)) : SourceResult :=
  match upstream with
  | Except.ok elements =>
    let hits := epicHitsLoop query elements
    ⟨"Epic Games Store (Free Now)".toList,
     "https://store.epicgames.com/en-US/free-games".toList, hits, hits.length, []⟩
  | Except.error _ =>
    ⟨"Epic Games Store (Free Now)".toList,
     "https://store.epicgames.com/en-US/free-games".toList, [], 0, []⟩

/-- The link element of an itch.io listing card; `href` is the optional
`href` attribute (`link_el.get("href")`). -/
structure ItchLink where
  href : Option PyStr
deriving DecidableEq

/-- One itch.io listing card: optional title element (its text content
after `get_text(strip=True)`) and optional link element. -/
structure ItchItem where
  titleEl : Option PyStr
  linkEl : Option ItchLink
deriving DecidableEq

/-- The filtering loop of `search_itch_free`: cards missing either element
are skipped; falsy title or href is skipped by the `if`. -/
def itchHitsLoop (query : PyStr) : List ItchItem → List Hit
  | [] => []
  | item :: rest =>
    match item.titleEl, item.linkEl with
    | some title, some link =>
      if !title.isEmpty && pyTruthyOptStr link.href && containsCI query title then
        ⟨title, link.href.getD []⟩ :: itchHitsLoop query rest
      else
        itchHitsLoop query rest
    | _, _ => itchHitsLoop query rest

/-- The hit condition of the itch.io loop, as a standalone predicate. -/
def itchCodeHitCond (query : PyStr) (item : ItchItem) : Bool :=
  match item.titleEl, item.linkEl with
  | some title, some link =>
    !title.isEmpty && pyTruthyOptStr link.href && containsCI query title
  | _, _ => false

/-- The hit built from an itch.io card. -/
def itchToHit (item : ItchItem) : Hit :=
  match item.titleEl, item.linkEl with
  | some title, some link => ⟨title, link.href.getD []⟩
  | _, _ => ⟨[], []⟩

/-- `search_itch_free` from `src/main.py`. -/
def search_itch_free (query : PyStr) (upstream : Except Unit (List ItchItem)) : SourceResult :=
  let search_url := "https://itch.io/games/free?q=".toList ++ quote query
  match upstream with
  | Except.ok items =>
    let hits := itchHitsLoop query items
    ⟨"itch.io (Free)".toList, search_url, hits, hits.length, []⟩
  | Except.error _ =>
    ⟨"itch.io (Free)".toList, search_url, [], 0, []⟩

/-- One Steam search-result row: optional title span text and the row's
optional `href` attribute. -/
structure SteamRow where
  titleEl : Option PyStr
  href : Option PyStr
deriving DecidableEq

/-- The filtering loop of `search_steam_free`: rows missing the title span
are skipped; falsy title or href is skipped by the `if`. -/
def steamHitsLoop (query : PyStr) : List SteamRow → List Hit
  | [] => []
  | row :: rest =>
    match row.titleEl with
    | none => steamHitsLoop query rest
    | some title =>
      if !title.isEmpty && pyTruthyOptStr row.href && containsCI query title then
        ⟨title, row.href.getD []⟩ :: steamHitsLoop query rest
      else
        steamHitsLoop query rest

/-- The hit condition of the Steam loop, as a standalone predicate. -/
def steamCodeHitCond (query : PyStr) (row : SteamRow) : Bool :=
  match row.titleEl with
  | none => false
  | some title => !title.isEmpty && pyTruthyOptStr row.href && containsCI query title

/-- The hit built from a Steam row. -/
def steamToHit (row : SteamRow) : Hit :=
  ⟨row.titleEl.getD [], row.href.getD []⟩

/-- `search_steam_free` from `src/main.py`. -/
def search_steam_free (query : PyStr) (upstream : Except Unit (List SteamRow)) : SourceResult :=
  let search_url := "https://store.steampowered.com/search/?term=".toList ++ quote query ++ "&price=free".toList
  match upstream with
  | Except.ok rows =>
    let hits := steamHitsLoop query rows
    ⟨"Steam (Free to Play)".toList, search_url, hits, hits.length, []⟩
  | Except.error _ =>
    ⟨"Steam (Free to Play)".toList, search_url, [], 0, []⟩

/-- One Internet Archive document: optional `title` and `identifier`
fields. -/
structure ArchiveDoc where
  title : Option PyStr
  identifier : Option PyStr
deriving DecidableEq

/-- The comprehension condition of `search_internet_archive`:
`d.get("title") and query.lower() in d.get("title", "").lower()`. -/
def archiveDocCond (query : PyStr) (d : ArchiveDoc) : Bool :=
  pyTruthyOptStr d.title && containsCI query (d.title.getD [])

/-- The hit built from an Archive document; a missing identifier renders
as the literal text `None` inside the f-string, as in Python. -/
def archiveToHit (d : ArchiveDoc) : Hit :=
  ⟨d.title.getD "Untitled".toList,
   "https://archive.org/details/".toList ++
     (match d.identifier with
      | some i => i
      | none => "None".toList)⟩

/-- The list comprehension of `search_internet_archive` over the returned
documents. -/
def archiveHitsLoop (query : PyStr) : List ArchiveDoc → List Hit
  | [] => []
  | d :: rest =>
    if archiveDocCond query d then archiveToHit d :: archiveHitsLoop query rest
    else archiveHitsLoop query rest

/-- `search_internet_archive` from `src/main.py`.  Note the two branches
build different `more_url` values: the success branch appends the
media-type filter, the failure branch does not. -/
def search_internet_archive (query : PyStr) (upstream : Except Unit (List ArchiveDoc)) : SourceResult :=
  match upstream with
  | Except.ok docs =>
    let hits := archiveHitsLoop query docs
    ⟨"Internet Archive (Software)".toList,
     "https://archive.org/search.php?query=".toList ++ quote query ++
       "&and[]=mediatype%3A%22software%22".toList,
     hits, hits.length, []⟩
  | Except.error _ =>
    ⟨"Internet Archive (Software)".toList,
     "https://archive.org/search.php?query=".toList ++ quote query,
     [], 0, []⟩

/-- The FastAPI `HTTPException` raised on an empty normalized query. -/
structure HTTPErrorResp where
  status_code : Nat
  detail : PyStr
deriving DecidableEq

/-- The JSON body returned by `search_games` on success. -/
structure AggregateResponse where
  query : PyStr
  sources : List SourceResult
deriving DecidableEq

/-- `search_games` from `src/main.py`, parametrised by the four upstream
outcomes.  The adapters are invoked only on the non-error path, after the
empty-query check. -/
def search_games (q : PyStr)
    (epicU : Except Unit (List EpicElement))
    (itchU : Except Unit (List ItchItem))
    (steamU : Except Unit (List SteamRow))
    (archU : Except Unit (List ArchiveDoc)) :
    Except HTTPErrorResp AggregateResponse :=
  let query := normalize_query q
  if query = [] then
    Except.error ⟨400, "Query cannot be empty".toList⟩
  else
    let sources := [search_epic_free_games query epicU,
                    search_itch_free query itchU,
                    search_steam_free query steamU,
                    search_internet_archive query archU]
    let ordered := sources.map fun src => { src with preview := limited src.hits 3 }
    Except.ok ⟨query, ordered⟩

/-! ### Helper lemmas about `dropWhile` and `stripBoth` -/

/-- A list whose head fails `p` is unchanged by `dropWhile p`. -/
lemma dropWhile_eq_self_of_head (p : Char → Bool) (l : PyStr)
    (h : ∀ a, l.head? = some a → p a = false) : l.dropWhile p = l := by
  cases l with
  | nil => rfl
  | cons a t => simp [List.dropWhile_cons, h a rfl]

/-- `dropWhile` is idempotent. -/
lemma dropWhile_dropWhile (p : Char → Bool) (l : PyStr) :
    (l.dropWhile p).dropWhile p = l.dropWhile p := by
  induction l with
  | nil => rfl
  | cons a t ih =>
    cases h : p a
    · simp [List.dropWhile_cons, h]
    · simpa [List.dropWhile_cons, h] using ih

/-- The head of a `dropWhile p` result fails `p`. -/
lemma dropWhile_head_false (p : Char → Bool) :
    ∀ (l : PyStr) {a : Char} {t : PyStr}, l.dropWhile p = a :: t → p a = false := by
  intro l
  induction l with
  | nil => intro a t h; simp at h
  | cons c rest ih =>
    intro a t h
    rw [List.dropWhile_cons] at h
    cases hc : p c
    · rw [hc] at h
      simp at h
      rw [← h.1]
      exact hc
    · rw [hc] at h
      simp at h
      exact ih h

/-- `dropWhile` keeps the last element when that element fails `p`. -/
lemma getLast?_dropWhile (p : Char → Bool) :
    ∀ (l : PyStr) (a : Char), l.getLast? = some a → p a = false →
      (l.dropWhile p).getLast? = some a := by
  intro l
  induction l with
  | nil => intro a h _; simp at h
  | cons c rest ih =>
    intro a h hp
    cases rest with
    | nil =>
      simp at h
      subst h
      rw [List.dropWhile_cons, hp]
      simp
    | cons d rest' =>
      rw [List.getLast?_cons_cons] at h
      rw [List.dropWhile_cons]
      cases hc : p c
      · simp only [Bool.false_eq_true, if_false]
        rw [List.getLast?_cons_cons]
        exact h
      · simp only [if_true]
        exact ih a h hp

/-- The result of `stripBoth` has no leading `p`-character. -/
lemma stripBoth_dropWhile_eq (p : Char → Bool) (s : PyStr) :
    (stripBoth p s).dropWhile p = stripBoth p s := by
  apply dropWhile_eq_self_of_head
  intro a ha
  unfold stripBoth at ha
  rw [List.head?_reverse] at ha
  cases hs : s.dropWhile p with
  | nil => rw [hs] at ha; simp at ha
  | cons b t =>
    have hb : p b = false := dropWhile_head_false p s hs
    have h1 : (s.dropWhile p).reverse.getLast? = some b := by
      rw [List.getLast?_reverse, hs]
      rfl
    have h2 := getLast?_dropWhile p ((s.dropWhile p).reverse) b h1 hb
    rw [h2] at ha
    rw [Option.some.injEq] at ha
    rw [← ha]
    exact hb

/-- The result of `stripBoth` has no trailing `p`-character. -/
lemma stripBoth_reverse_dropWhile_eq (p : Char → Bool) (s : PyStr) :
    (stripBoth p s).reverse.dropWhile p = (stripBoth p s).reverse := by
  unfold stripBoth
  rw [List.reverse_reverse]
  exact dropWhile_dropWhile p _

/-- `stripBoth` is idempotent. -/
lemma stripBoth_idem (p : Char → Bool) (s : PyStr) :
    stripBoth p (stripBoth p s) = stripBoth p s := by
  have h1 : stripBoth p (stripBoth p s)
      = (((stripBoth p s).dropWhile p).reverse.dropWhile p).reverse := rfl
  rw [h1, stripBoth_dropWhile_eq p s, stripBoth_reverse_dropWhile_eq p s,
    List.reverse_reverse]

/-! ### Helper lemmas about `collapseWs` and `normalize_query` -/

/-- No two adjacent characters are both whitespace. -/
def NoTwoWs (x y : Char) : Prop :=
  pyIsSpace x = false ∨ pyIsSpace y = false

/-- The head of a collapsed non-empty list is a space when its first
character was whitespace, and that character otherwise. -/
lemma collapseWs_head :
    ∀ (rest : PyStr) (b : Char),
      ∃ t, collapseWs (b :: rest) = (if pyIsSpace b then ' ' else b) :: t := by
  intro rest
  induction rest with
  | nil =>
    intro b
    cases hb : pyIsSpace b
    · exact ⟨[], by simp [collapseWs, hb]⟩
    · exact ⟨[], by simp [collapseWs, hb]⟩
  | cons c rest' ih =>
    intro b
    cases hb : pyIsSpace b
    · exact ⟨collapseWs (c :: rest'), by simp [collapseWs, hb]⟩
    · cases hc : pyIsSpace c
      · exact ⟨collapseWs (c :: rest'), by simp [collapseWs, hb, hc]⟩
      · obtain ⟨t, ht⟩ := ih c
        refine ⟨t, ?_⟩
        rw [show collapseWs (b :: c :: rest') = collapseWs (c :: rest') by
          simp [collapseWs, hb, hc]]
        rw [ht]
        simp [hb, hc]

/-- Every whitespace character surviving `collapseWs` is a space. -/
lemma collapseWs_ws_eq_space :
    ∀ (l : PyStr) (c : Char), c ∈ collapseWs l → pyIsSpace c = true → c = ' ' := by
  intro l
  induction l with
  | nil => intro c hc _; simp [collapseWs] at hc
  | cons a t ih =>
    cases t with
    | nil =>
      intro c hc hws
      cases ha : pyIsSpace a
      · simp [collapseWs, ha] at hc
        rw [hc] at hws
        rw [ha] at hws
        exact absurd hws (by simp)
      · simp [collapseWs, ha] at hc
        exact hc
    | cons b rest =>
      intro c hc hws
      by_cases hab : (pyIsSpace a && pyIsSpace b) = true
      · rw [show collapseWs (a :: b :: rest) = collapseWs (b :: rest) by
          simp [collapseWs, hab]] at hc
        exact ih c hc hws
      · rw [show collapseWs (a :: b :: rest)
            = (if pyIsSpace a then ' ' else a) :: collapseWs (b :: rest) from by
          simp only [collapseWs]
          rw [if_neg hab]] at hc
        rcases List.mem_cons.mp hc with h | h
        · cases ha : pyIsSpace a
          · rw [ha] at h
            simp at h
            rw [h] at hws
            rw [ha] at hws
            exact absurd hws (by simp)
          · rw [ha] at h
            simp at h
            exact h
        · exact ih c h hws

/-- `collapseWs` leaves no two adjacent whitespace characters. -/
lemma collapseWs_chain' :
    ∀ l : PyStr, List.Chain' NoTwoWs (collapseWs l) := by
  intro l
  induction l with
  | nil => simp [collapseWs]
  | cons a t ih =>
    cases t with
    | nil =>
      cases ha : pyIsSpace a
      · simp [collapseWs, ha]
      · simp [collapseWs, ha]
    | cons b rest =>
      cases ha : pyIsSpace a <;> cases hb : pyIsSpace b
      · rw [show collapseWs (a :: b :: rest) = a :: collapseWs (b :: rest) by
          simp [collapseWs, ha]]
        rw [List.chain'_cons']
        exact ⟨fun y _ => Or.inl ha, ih⟩
      · rw [show collapseWs (a :: b :: rest) = a :: collapseWs (b :: rest) by
          simp [collapseWs, ha]]
        rw [List.chain'_cons']
        exact ⟨fun y _ => Or.inl ha, ih⟩
      · rw [show collapseWs (a :: b :: rest) = ' ' :: collapseWs (b :: rest) by
          simp [collapseWs, ha, hb]]
        rw [List.chain'_cons']
        refine ⟨?_, ih⟩
        intro y hy
        obtain ⟨t', ht'⟩ := collapseWs_head rest b
        rw [ht'] at hy
        rw [hb] at hy
        simp at hy
        rw [← hy]
        exact Or.inr hb
      · rw [show collapseWs (a :: b :: rest) = collapseWs (b :: rest) by
          simp [collapseWs, ha, hb]]
        exact ih

/-- A list all of whose whitespace is single spaces, with no two adjacent,
is a fixed point of `collapseWs`. -/
lemma collapseWs_eq_self :
    ∀ l : PyStr, (∀ c ∈ l, pyIsSpace c = true → c = ' ') →
      List.Chain' NoTwoWs l → collapseWs l = l := by
  intro l
  induction l with
  | nil => intro _ _; rfl
  | cons a t ih =>
    cases t with
    | nil =>
      intro hmem _
      cases ha : pyIsSpace a
      · simp [collapseWs, ha]
      · have haeq : a = ' ' := hmem a (by simp) ha
        simp [collapseWs, ha, haeq]
    | cons b rest =>
      intro hmem hch
      obtain ⟨hab, htail⟩ := List.chain'_cons.mp hch
      have hcond : (pyIsSpace a && pyIsSpace b) = false := by
        rcases hab with h | h <;> simp [h]
      have hrec : collapseWs (b :: rest) = b :: rest :=
        ih (fun c hc hw => hmem c (List.mem_cons_of_mem a hc) hw) htail
      cases ha : pyIsSpace a
      · simp [collapseWs, hcond, ha, hrec]
      · have haeq : a = ' ' := hmem a (by simp) ha
        rw [haeq] at hcond ha ⊢
        simp [collapseWs, hcond, ha, hrec]
        rw [ha] at hcond
        simpa using hcond

/-- Membership is preserved backwards through `dropWhile`. -/
lemma mem_dropWhile (p : Char → Bool) :
    ∀ (l : PyStr) (c : Char), c ∈ l.dropWhile p → c ∈ l := by
  intro l
  induction l with
  | nil => intro c hc; simp at hc
  | cons a t ih =>
    intro c hc
    rw [List.dropWhile_cons] at hc
    split at hc
    · exact List.mem_cons_of_mem a (ih c hc)
    · exact hc

/-- Membership is preserved backwards through `stripBoth`. -/
lemma mem_stripBoth (p : Char → Bool) (s : PyStr) (c : Char)
    (hc : c ∈ stripBoth p s) : c ∈ s := by
  unfold stripBoth at hc
  rw [List.mem_reverse] at hc
  have h1 := mem_dropWhile p _ c hc
  rw [List.mem_reverse] at h1
  exact mem_dropWhile p s c h1

/-- `Chain'` is preserved by `dropWhile`. -/
lemma chain'_dropWhile {R : Char → Char → Prop} (p : Char → Bool) :
    ∀ l : PyStr, List.Chain' R l → List.Chain' R (l.dropWhile p) := by
  intro l
  induction l with
  | nil => intro h; exact h
  | cons a t ih =>
    intro h
    rw [List.dropWhile_cons]
    split
    · exact ih h.tail
    · exact h

/-- `NoTwoWs` chains reverse. -/
lemma chain'_noTwoWs_reverse (l : PyStr) (h : List.Chain' NoTwoWs l) :
    List.Chain' NoTwoWs l.reverse := by
  rw [List.chain'_reverse]
  exact h.imp fun a b hab => Or.symm hab

/-- `Chain' NoTwoWs` is preserved by `stripBoth`. -/
lemma chain'_stripBoth (p : Char → Bool) (s : PyStr)
    (h : List.Chain' NoTwoWs s) : List.Chain' NoTwoWs (stripBoth p s) := by
  unfold stripBoth
  exact chain'_noTwoWs_reverse _
    (chain'_dropWhile p _ (chain'_noTwoWs_reverse _ (chain'_dropWhile p s h)))

/-- All whitespace surviving normalization is a single space. -/
lemma normalize_query_ws_eq_space (q : PyStr) :
    ∀ c ∈ normalize_query q, pyIsSpace c = true → c = ' ' := by
  intro c hc hw
  exact collapseWs_ws_eq_space q c (mem_stripBoth pyIsSpace _ c hc) hw

/-- No two adjacent whitespace characters survive normalization. -/
lemma normalize_query_chain' (q : PyStr) :
    List.Chain' NoTwoWs (normalize_query q) :=
  chain'_stripBoth pyIsSpace _ (collapseWs_chain' q)

/-- A normalized query is a fixed point of the whitespace collapse. -/
lemma collapseWs_normalize (q : PyStr) :
    collapseWs (normalize_query q) = normalize_query q :=
  collapseWs_eq_self _ (normalize_query_ws_eq_space q) (normalize_query_chain' q)

/-- `normalize_query` is idempotent. -/
lemma normalize_query_idem (q : PyStr) :
    normalize_query (normalize_query q) = normalize_query q := by
  have h1 : normalize_query (normalize_query q)
      = stripBoth pyIsSpace (collapseWs (normalize_query q)) := rfl
  rw [h1, collapseWs_normalize q]
  show stripBoth pyIsSpace (stripBoth pyIsSpace (collapseWs q)) = normalize_query q
  rw [stripBoth_idem]
  rfl

/-! ### Adapter structure lemmas -/

/-- The Epic loop is filtering by the hit condition followed by hit
construction. -/
lemma epicHitsLoop_eq (query : PyStr) :
    ∀ els : List EpicElement,
      epicHitsLoop query els = (els.filter (epicCodeHitCond query)).map epicToHit := by
  intro els
  induction els with
  | nil => rfl
  | cons el rest ih =>
    have hstep : epicHitsLoop query (el :: rest)
        = if epicCodeHitCond query el then epicToHit el :: epicHitsLoop query rest
          else epicHitsLoop query rest := rfl
    rw [hstep, List.filter_cons]
    cases h : epicCodeHitCond query el <;> simp [h, ih]

/-- The itch.io loop is filtering by the hit condition followed by hit
construction. -/
lemma itchHitsLoop_eq (query : PyStr) :
    ∀ items : List ItchItem,
      itchHitsLoop query items = (items.filter (itchCodeHitCond query)).map itchToHit := by
  intro items
  induction items with
  | nil => rfl
  | cons item rest ih =>
    rcases item with ⟨tEl, lEl⟩
    cases tEl with
    | none =>
      have hstep : itchHitsLoop query (⟨none, lEl⟩ :: rest) = itchHitsLoop query rest := by
        cases lEl <;> rfl
      have hcond : itchCodeHitCond query ⟨none, lEl⟩ = false := by
        cases lEl <;> rfl
      rw [hstep, List.filter_cons, hcond]
      simp only [Bool.false_eq_true, if_false]
      exact ih
    | some title =>
      cases lEl with
      | none =>
        rw [show itchHitsLoop query (⟨some title, none⟩ :: rest)
              = itchHitsLoop query rest from rfl,
          List.filter_cons,
          show itchCodeHitCond query ⟨some title, none⟩ = false from rfl]
        simp only [Bool.false_eq_true, if_false]
        exact ih
      | some link =>
        have hstep : itchHitsLoop query (⟨some title, some link⟩ :: rest)
            = if itchCodeHitCond query ⟨some title, some link⟩ then
                itchToHit ⟨some title, some link⟩ :: itchHitsLoop query rest
              else itchHitsLoop query rest := rfl
        rw [hstep, List.filter_cons]
        cases h : itchCodeHitCond query ⟨some title, some link⟩ <;> simp [h, ih]

/-- The Steam loop is filtering by the hit condition followed by hit
construction. -/
lemma steamHitsLoop_eq (query : PyStr) :
    ∀ rows : List SteamRow,
      steamHitsLoop query rows = (rows.filter (steamCodeHitCond query)).map steamToHit := by
  intro rows
  induction rows with
  | nil => rfl
  | cons row rest ih =>
    rcases row with ⟨tEl, href⟩
    cases tEl with
    | none =>
      rw [show steamHitsLoop query (⟨none, href⟩ :: rest)
            = steamHitsLoop query rest from rfl,
        List.filter_cons,
        show steamCodeHitCond query ⟨none, href⟩ = false from rfl]
      simp only [Bool.false_eq_true, if_false]
      exact ih
    | some title =>
      have hstep : steamHitsLoop query (⟨some title, href⟩ :: rest)
          = if steamCodeHitCond query ⟨some title, href⟩ then
              steamToHit ⟨some title, href⟩ :: steamHitsLoop query rest
            else steamHitsLoop query rest := rfl
      rw [hstep, List.filter_cons]
      cases h : steamCodeHitCond query ⟨some title, href⟩ <;> simp [h, ih]

/-- The Archive comprehension is filtering by the document condition
followed by hit construction. -/
lemma archiveHitsLoop_eq (query : PyStr) :
    ∀ docs : List ArchiveDoc,
      archiveHitsLoop query docs = (docs.filter (archiveDocCond query)).map archiveToHit := by
  intro docs
  induction docs with
  | nil => rfl
  | cons d rest ih =>
    rw [show archiveHitsLoop query (d :: rest)
          = if archiveDocCond query d then archiveToHit d :: archiveHitsLoop query rest
            else archiveHitsLoop query rest from rfl,
      List.filter_cons]
    cases h : archiveDocCond query d <;> simp [h, ih]

/-- Each adapter's `total_hits` is the length of its `hits`, on both the
success and the failure path. -/
lemma search_epic_total (q : PyStr) (u : Except Unit (List EpicElement)) :
    (search_epic_free_games q u).total_hits = (search_epic_free_games q u).hits.length := by
  cases u <;> rfl

lemma search_itch_total (q : PyStr) (u : Except Unit (List ItchItem)) :
    (search_itch_free q u).total_hits = (search_itch_free q u).hits.length := by
  cases u <;> rfl

lemma search_steam_total (q : PyStr) (u : Except Unit (List SteamRow)) :
    (search_steam_free q u).total_hits = (search_steam_free q u).hits.length := by
  cases u <;> rfl

lemma search_archive_total (q : PyStr) (u : Except Unit (List ArchiveDoc)) :
    (search_internet_archive q u).total_hits = (search_internet_archive q u).hits.length := by
  cases u <;> rfl

/-- Each adapter's `source` name, on both paths. -/
lemma search_epic_source (q : PyStr) (u : Except Unit (List EpicElement)) :
    (search_epic_free_games q u).source = "Epic Games Store (Free Now)".toList := by
  cases u <;> rfl

lemma search_itch_source (q : PyStr) (u : Except Unit (List ItchItem)) :
    (search_itch_free q u).source = "itch.io (Free)".toList := by
  cases u <;> rfl

lemma search_steam_source (q : PyStr) (u : Except Unit (List SteamRow)) :
    (search_steam_free q u).source = "Steam (Free to Play)".toList := by
  cases u <;> rfl

lemma search_archive_source (q : PyStr) (u : Except Unit (List ArchiveDoc)) :
    (search_internet_archive q u).source = "Internet Archive (Software)".toList := by
  cases u <;> rfl

/-- `more_url` is never empty: Epic. -/
lemma search_epic_more_url_ne (q : PyStr) (u : Except Unit (List EpicElement)) :
    (search_epic_free_games q u).more_url ≠ [] := by
  cases u with
  | ok els =>
    show "https://store.epicgames.com/en-US/free-games".toList ≠ []
    decide
  | error e =>
    show "https://store.epicgames.com/en-US/free-games".toList ≠ []
    decide

/-- `more_url` is never empty: itch.io. -/
lemma search_itch_more_url_ne (q : PyStr) (u : Except Unit (List ItchItem)) :
    (search_itch_free q u).more_url ≠ [] := by
  have h : (search_itch_free q u).more_url
      = "https://itch.io/games/free?q=".toList ++ quote q := by
    cases u <;> rfl
  rw [h]
  intro hcontra
  rw [List.append_eq_nil] at hcontra
  exact absurd hcontra.1 (by decide)

/-- `more_url` is never empty: Steam. -/
lemma search_steam_more_url_ne (q : PyStr) (u : Except Unit (List SteamRow)) :
    (search_steam_free q u).more_url ≠ [] := by
  have h : (search_steam_free q u).more_url
      = "https://store.steampowered.com/search/?term=".toList ++ quote q
        ++ "&price=free".toList := by
    cases u <;> rfl
  rw [h]
  intro hcontra
  rw [List.append_eq_nil] at hcontra
  exact absurd hcontra.2 (by decide)

/-- `more_url` is never empty: Internet Archive. -/
lemma search_archive_more_url_ne (q : PyStr) (u : Except Unit (List ArchiveDoc)) :
    (search_internet_archive q u).more_url ≠ [] := by
  cases u with
  | ok docs =>
    show ("https://archive.org/search.php?query=".toList ++ quote q
        ++ "&and[]=mediatype%3A%22software%22".toList) ≠ []
    intro hcontra
    rw [List.append_eq_nil] at hcontra
    exact absurd hcontra.2 (by decide)
  | error e =>
    show ("https://archive.org/search.php?query=".toList ++ quote q) ≠ []
    intro hcontra
    rw [List.append_eq_nil] at hcontra
    exact absurd hcontra.1 (by decide)

/-- `search_games` on an empty normalized query: the fixed 400 error,
independent of the upstream outcomes. -/
lemma search_games_empty (q : PyStr)
    (eU : Except Unit (List EpicElement)) (iU : Except Unit (List ItchItem))
    (sU : Except Unit (List SteamRow)) (aU : Except Unit (List ArchiveDoc))
    (h : normalize_query q = []) :
    search_games q eU iU sU aU = Except.error ⟨400, "Query cannot be empty".toList⟩ := by
  simp only [search_games]
  rw [if_pos h]

/-- `search_games` on a non-empty normalized query: the shaped four-source
response. -/
lemma search_games_ok (q : PyStr)
    (eU : Except Unit (List EpicElement)) (iU : Except Unit (List ItchItem))
    (sU : Except Unit (List SteamRow)) (aU : Except Unit (List ArchiveDoc))
    (h : normalize_query q ≠ []) :
    search_games q eU iU sU aU = Except.ok
      ⟨normalize_query q,
       [search_epic_free_games (normalize_query q) eU,
        search_itch_free (normalize_query q) iU,
        search_steam_free (normalize_query q) sU,
        search_internet_archive (normalize_query q) aU].map
         fun src => { src with preview := limited src.hits 3 }⟩ := by
  simp only [search_games]
  rw [if_neg h]

/-- Invariants of one shaped source result (hits/total untouched, preview
a length-`min 3` prefix). -/
lemma shaped_invariants (base : SourceResult)
    (hb : base.total_hits = base.hits.length) :
    ({ base with preview := limited base.hits 3 } : SourceResult).total_hits
        = ({ base with preview := limited base.hits 3 } : SourceResult).hits.length
    ∧ ({ base with preview := limited base.hits 3 } : SourceResult).preview
        = ({ base with preview := limited base.hits 3 } : SourceResult).hits.take
            (min 3 ({ base with preview := limited base.hits 3 } : SourceResult).total_hits)
    ∧ ({ base with preview := limited base.hits 3 } : SourceResult).preview
        <+: ({ base with preview := limited base.hits 3 } : SourceResult).hits
    ∧ ({ base with preview := limited base.hits 3 } : SourceResult).preview.length ≤ 3 := by
  refine ⟨hb, ?_, ?_, ?_⟩
  · show limited base.hits 3 = base.hits.take (min 3 base.total_hits)
    rw [hb]
    show base.hits.take 3 = base.hits.take (min 3 base.hits.length)
    rw [List.take_eq_take, Nat.min_assoc, Nat.min_self]
  · show base.hits.take 3 <+: base.hits
    exact List.take_prefix 3 base.hits
  · show (base.hits.take 3).length ≤ 3
    rw [List.length_take]
    exact Nat.min_le_left 3 _

/-- C1: the search endpoint rejects with the fixed 400 client error exactly
when the normalized query is empty, and succeeds exactly when it is
non-empty, for every combination of upstream outcomes (so the rejection is
decided before, and independently of, any adapter work). -/
theorem C1_error_iff_empty_query (q : PyStr)
    (eU : Except Unit (List EpicElement)) (iU : Except Unit (List ItchItem))
    (sU : Except Unit (List SteamRow)) (aU : Except Unit (List ArchiveDoc)) :
    (search_games q eU iU sU aU
        = Except.error ⟨400, "Query cannot be empty".toList⟩ ↔ normalize_query q = [])
    ∧ ((∃ r, search_games q eU iU sU aU = Except.ok r) ↔ normalize_query q ≠ []) := by
  by_cases h : normalize_query q = []
  · have he := search_games_empty q eU iU sU aU h
    constructor
    · exact ⟨fun _ => h, fun _ => he⟩
    · constructor
      · rintro ⟨r, hr⟩
        rw [he] at hr
        exact absurd hr (by simp)
      · intro hne
        exact absurd h hne
  · have ho := search_games_ok q eU iU sU aU h
    constructor
    · constructor
      · intro hcontra
        rw [ho] at hcontra
        exact absurd hcontra (by simp)
      · intro he
        exact absurd he h
    · exact ⟨fun _ => h, fun _ => ⟨_, ho⟩⟩

/-- C1 witness: a whitespace-only query is rejected with the 400 error. -/
theorem C1_error_iff_empty_query_witness :
    search_games "   ".toList (Except.ok []) (Except.ok []) (Except.ok []) (Except.ok [])
      = Except.error ⟨400, "Query cannot be empty".toList⟩ :=
  (C1_error_iff_empty_query "   ".toList (Except.ok []) (Except.ok []) (Except.ok [])
    (Except.ok [])).1.mpr (by decide)

/-- C2: every successful response carries exactly four source results, in
the fixed order Epic, itch.io, Steam, Internet Archive, regardless of the
upstream outcomes (zero-hit sources included). -/
theorem C2_sources_fixed_order (q : PyStr)
    (eU : Except Unit (List EpicElement)) (iU : Except Unit (List ItchItem))
    (sU : Except Unit (List SteamRow)) (aU : Except Unit (List ArchiveDoc))
    (r : AggregateResponse) (h : search_games q eU iU sU aU = Except.ok r) :
    r.sources.length = 4
    ∧ r.sources.map SourceResult.source
      = ["Epic Games Store (Free Now)".toList, "itch.io (Free)".toList,
         "Steam (Free to Play)".toList, "Internet Archive (Software)".toList] := by
  by_cases hq : normalize_query q = []
  · rw [search_games_empty q eU iU sU aU hq] at h
    exact absurd h (by simp)
  · rw [search_games_ok q eU iU sU aU hq] at h
    injection h with h'
    subst h'
    constructor
    · simp
    · simp [search_epic_source, search_itch_source, search_steam_source,
        search_archive_source]

/-- C2 witness: with all four upstreams failing, the response still lists
the four sources in order. -/
theorem C2_sources_fixed_order_witness :
    ((search_games "a".toList (Except.error ()) (Except.error ()) (Except.error ())
        (Except.error ())).toOption.getD ⟨[], []⟩).sources.length = 4
    ∧ ((search_games "a".toList (Except.error ()) (Except.error ()) (Except.error ())
        (Except.error ())).toOption.getD ⟨[], []⟩).sources.map SourceResult.source
      = ["Epic Games Store (Free Now)".toList, "itch.io (Free)".toList,
         "Steam (Free to Play)".toList, "Internet Archive (Software)".toList] :=
  C2_sources_fixed_order "a".toList (Except.error ()) (Except.error ()) (Except.error ())
    (Except.error ()) _ (by rfl)

/-- C3: on any upstream failure each adapter returns the zero-hit fallback
(empty hits, zero total, non-empty moreUrl), and the whole request still
succeeds for any valid query even with all four upstreams failing. -/
theorem C3_failure_recovery (q : PyStr) :
    ((search_epic_free_games q (Except.error ())).hits = []
      ∧ (search_epic_free_games q (Except.error ())).total_hits = 0
      ∧ (search_epic_free_games q (Except.error ())).more_url ≠ [])
    ∧ ((search_itch_free q (Except.error ())).hits = []
      ∧ (search_itch_free q (Except.error ())).total_hits = 0
      ∧ (search_itch_free q (Except.error ())).more_url ≠ [])
    ∧ ((search_steam_free q (Except.error ())).hits = []
      ∧ (search_steam_free q (Except.error ())).total_hits = 0
      ∧ (search_steam_free q (Except.error ())).more_url ≠ [])
    ∧ ((search_internet_archive q (Except.error ())).hits = []
      ∧ (search_internet_archive q (Except.error ())).total_hits = 0
      ∧ (search_internet_archive q (Except.error ())).more_url ≠ [])
    ∧ (normalize_query q ≠ [] → ∃ r,
        search_games q (Except.error ()) (Except.error ()) (Except.error ())
          (Except.error ()) = Except.ok r) :=
  ⟨⟨rfl, rfl, search_epic_more_url_ne q _⟩,
   ⟨rfl, rfl, search_itch_more_url_ne q _⟩,
   ⟨rfl, rfl, search_steam_more_url_ne q _⟩,
   ⟨rfl, rfl, search_archive_more_url_ne q _⟩,
   fun h => ⟨_, search_games_ok q _ _ _ _ h⟩⟩

/-- C3 witness: with every upstream failing, the Epic fallback is empty
and the request for query `mario` still succeeds. -/
theorem C3_failure_recovery_witness :
    (search_epic_free_games "mario".toList (Except.error ())).hits = []
    ∧ (∃ r, search_games "mario".toList (Except.error ()) (Except.error ())
        (Except.error ()) (Except.error ()) = Except.ok r) :=
  ⟨(C3_failure_recovery "mario".toList).1.1,
   (C3_failure_recovery "mario".toList).2.2.2.2 (by decide)⟩

/-- C4: in every successful response, each source result satisfies
`totalHits = length hits`, `preview = take (min 3 totalHits) hits` (a
prefix of `hits` of length at most 3), and shaping left `hits` and
`totalHits` equal to the adapter's values. -/
theorem C4_preview_shape (q : PyStr)
    (eU : Except Unit (List EpicElement)) (iU : Except Unit (List ItchItem))
    (sU : Except Unit (List SteamRow)) (aU : Except Unit (List ArchiveDoc))
    (r : AggregateResponse) (h : search_games q eU iU sU aU = Except.ok r)
    (src : SourceResult) (hs : src ∈ r.sources) :
    src.total_hits = src.hits.length
    ∧ src.preview = src.hits.take (min 3 src.total_hits)
    ∧ src.preview <+: src.hits
    ∧ src.preview.length ≤ 3 := by
  by_cases hq : normalize_query q = []
  · rw [search_games_empty q eU iU sU aU hq] at h
    exact absurd h (by simp)
  · rw [search_games_ok q eU iU sU aU hq] at h
    injection h with h'
    subst h'
    simp only [List.map_cons, List.map_nil, List.mem_cons, List.not_mem_nil,
      or_false] at hs
    rcases hs with h1 | h2 | h3 | h4
    · rw [h1]
      exact shaped_invariants _ (search_epic_total _ _)
    · rw [h2]
      exact shaped_invariants _ (search_itch_total _ _)
    · rw [h3]
      exact shaped_invariants _ (search_steam_total _ _)
    · rw [h4]
      exact shaped_invariants _ (search_archive_total _ _)

/-- C4 witness: the shaped Epic fallback entry of a concrete response. -/
theorem C4_preview_shape_witness :
    (⟨"Epic Games Store (Free Now)".toList,
      "https://store.epicgames.com/en-US/free-games".toList, [], 0, []⟩
        : SourceResult).total_hits
      = (⟨"Epic Games Store (Free Now)".toList,
          "https://store.epicgames.com/en-US/free-games".toList, [], 0, []⟩
            : SourceResult).hits.length
    ∧ (⟨"Epic Games Store (Free Now)".toList,
        "https://store.epicgames.com/en-US/free-games".toList, [], 0, []⟩
          : SourceResult).preview
      = (⟨"Epic Games Store (Free Now)".toList,
          "https://store.epicgames.com/en-US/free-games".toList, [], 0, []⟩
            : SourceResult).hits.take
          (min 3 (⟨"Epic Games Store (Free Now)".toList,
            "https://store.epicgames.com/en-US/free-games".toList, [], 0, []⟩
              : SourceResult).total_hits)
    ∧ (⟨"Epic Games Store (Free Now)".toList,
        "https://store.epicgames.com/en-US/free-games".toList, [], 0, []⟩
          : SourceResult).preview
      <+: (⟨"Epic Games Store (Free Now)".toList,
          "https://store.epicgames.com/en-US/free-games".toList, [], 0, []⟩
            : SourceResult).hits
    ∧ (⟨"Epic Games Store (Free Now)".toList,
        "https://store.epicgames.com/en-US/free-games".toList, [], 0, []⟩
          : SourceResult).preview.length ≤ 3 :=
  C4_preview_shape "doom".toList (Except.error ()) (Except.error ()) (Except.error ())
    (Except.error ()) _ (by rfl) _ (by decide)

/-- C5 counterexample: an element whose title matches the query and whose
promotions structure has a non-empty promotional-offers entry (the second
one), yet which the Epic adapter does not count as a hit, because only the
FIRST entry is inspected. -/
theorem C5_counterexample :
    ((⟨"Hollow Knight".toList, some ⟨[⟨[]⟩, ⟨[()]⟩]⟩, none, none⟩
        : EpicElement).promotions.map
          (fun p => p.promotionalOffers.any fun e => !e.promotionalOffers.isEmpty)).getD
        false = true
    ∧ containsCI "hollow knight".toList "Hollow Knight".toList = true
    ∧ (search_epic_free_games "hollow knight".toList
        (Except.ok [⟨"Hollow Knight".toList, some ⟨[⟨[]⟩, ⟨[()]⟩]⟩, none, none⟩])).hits
      = [] := by
  decide

/-- C5 (amended): an Epic catalog element becomes a hit iff it satisfies
`epicCodeHitCond` (stripped title truthy, case-insensitive containment of
the query, and `epicIsFreeNow`), where `epicIsFreeNow` holds iff the FIRST
entry of the promotional-offers list exists and is non-empty — later
entries are never consulted. -/
theorem C5_first_promo_entry_only (query : PyStr) (els : List EpicElement) :
    (search_epic_free_games query (Except.ok els)).hits
      = (els.filter (epicCodeHitCond query)).map epicToHit
    ∧ (∀ el : EpicElement, epicIsFreeNow el = true ↔
        ∃ p entry t, el.promotions = some p ∧ p.promotionalOffers = entry :: t
          ∧ entry.promotionalOffers ≠ []) := by
  constructor
  · exact epicHitsLoop_eq query els
  · intro el
    rcases el with ⟨t0, promos, ps, us⟩
    cases promos with
    | none =>
      constructor
      · intro h
        exact absurd h (by simp [epicIsFreeNow])
      · rintro ⟨p, entry, t, hp, _, _⟩
        exact absurd hp (by simp)
    | some p =>
      rcases p with ⟨offers⟩
      cases offers with
      | nil =>
        constructor
        · intro h
          exact absurd h (by simp [epicIsFreeNow])
        · rintro ⟨p', entry, t, hp, ho, _⟩
          injection hp with hp'
          rw [← hp'] at ho
          exact absurd ho (by simp)
      | cons e rest =>
        constructor
        · intro h
          refine ⟨⟨e :: rest⟩, e, rest, rfl, rfl, ?_⟩
          have h2 : (!e.promotionalOffers.isEmpty) = true := h
          intro hc
          rw [hc] at h2
          simp at h2
        · rintro ⟨p', entry, t, hp, ho, hne⟩
          injection hp with hp'
          rw [← hp'] at ho
          have he : e = entry := by
            simp at ho
            exact ho.1
          show (!e.promotionalOffers.isEmpty) = true
          rw [he]
          cases hpe : entry.promotionalOffers with
          | nil => exact absurd hpe hne
          | cons x xs => rfl

/-- C6 counterexample: an element with no `productSlug` but a truthy
`urlSlug` gets a slug-built URL, not the generic free-games listing URL
the claim prescribes for every missing `productSlug`. -/
theorem C6_counterexample :
    (⟨"Hollow Knight".toList, some ⟨[⟨[()]⟩]⟩, none, some "hollow-knight".toList⟩
        : EpicElement).productSlug = none
    ∧ (search_epic_free_games "hollow".toList
        (Except.ok [⟨"Hollow Knight".toList, some ⟨[⟨[()]⟩]⟩, none,
          some "hollow-knight".toList⟩])).hits
      = [⟨"Hollow Knight".toList,
          "https://store.epicgames.com/en-US/p/hollow-knight".toList⟩]
    ∧ ("https://store.epicgames.com/en-US/p/hollow-knight".toList
        ≠ "https://store.epicgames.com/free-games".toList)
    ∧ ("https://store.epicgames.com/en-US/p/hollow-knight".toList
        ≠ "https://store.epicgames.com/en-US/free-games".toList) := by
  decide

/-- C6 (amended): each hit's URL is `epicLink` of its element, which uses
`productSlug` when truthy, otherwise `urlSlug` when truthy (each stripped
of surrounding slashes), and only otherwise the generic free-games URL. -/
theorem C6_link_slug_fallback (query : PyStr) (els : List EpicElement) :
    (search_epic_free_games query (Except.ok els)).hits
      = (els.filter (epicCodeHitCond query)).map epicToHit
    ∧ (∀ el : EpicElement, epicToHit el = ⟨stripBoth pyIsSpace el.title, epicLink el⟩)
    ∧ (∀ el : EpicElement, epicLink el =
        if pyTruthyOptStr el.productSlug then
          "https://store.epicgames.com/en-US/p/".toList
            ++ stripBoth (fun c => c == '/') (el.productSlug.getD [])
        else if pyTruthyOptStr el.urlSlug then
          "https://store.epicgames.com/en-US/p/".toList
            ++ stripBoth (fun c => c == '/') (el.urlSlug.getD [])
        else "https://store.epicgames.com/free-games".toList) := by
  refine ⟨epicHitsLoop_eq query els, fun el => rfl, fun el => ?_⟩
  simp only [epicLink]
  cases hps : pyTruthyOptStr el.productSlug
  · cases hus : pyTruthyOptStr el.urlSlug
    · simp [hps, hus]
    · simp [hps, hus]
  · simp [hps]

/-- C7 counterexample: on upstream failure the Archive `moreUrl` is built
from the query alone — the software media-type filter is absent, contrary
to the claim that it is always included. -/
theorem C7_counterexample :
    (search_internet_archive "doom".toList (Except.error ())).more_url
      = "https://archive.org/search.php?query=doom".toList
    ∧ ¬ ("mediatype".toList <:+:
        (search_internet_archive "doom".toList (Except.error ())).more_url)
    ∧ ("mediatype".toList <:+:
        (search_internet_archive "doom".toList (Except.ok [])).more_url) := by
  refine ⟨rfl, by decide, by decide⟩

/-- C7 (amended): on upstream success the Archive `moreUrl` is built from
the query and the software media-type filter; on upstream failure it is
built from the query alone. -/
theorem C7_more_url_branches (q : PyStr) (docs : List ArchiveDoc) :
    (search_internet_archive q (Except.ok docs)).more_url
      = "https://archive.org/search.php?query=".toList ++ quote q
        ++ "&and[]=mediatype%3A%22software%22".toList
    ∧ (search_internet_archive q (Except.error ())).more_url
      = "https://archive.org/search.php?query=".toList ++ quote q :=
  ⟨rfl, rfl⟩

/-- C8: normalization leaves only single interior spaces (every surviving
whitespace character is a space, no two adjacent, none at either end) and
is idempotent. -/
theorem C8_normalize_collapse_trim_idem (q : PyStr) :
    (∀ c ∈ normalize_query q, pyIsSpace c = true → c = ' ')
    ∧ List.Chain' NoTwoWs (normalize_query q)
    ∧ (normalize_query q).dropWhile pyIsSpace = normalize_query q
    ∧ (normalize_query q).reverse.dropWhile pyIsSpace = (normalize_query q).reverse
    ∧ normalize_query (normalize_query q) = normalize_query q :=
  ⟨normalize_query_ws_eq_space q, normalize_query_chain' q,
   stripBoth_dropWhile_eq pyIsSpace (collapseWs q),
   stripBoth_reverse_dropWhile_eq pyIsSpace (collapseWs q),
   normalize_query_idem q⟩

/-- C8 witness: idempotence at a concrete raw query. -/
theorem C8_normalize_witness :
    normalize_query (normalize_query "  hollow   knight ".toList)
      = normalize_query "  hollow   knight ".toList :=
  (C8_normalize_collapse_trim_idem "  hollow   knight ".toList).2.2.2.2

/-- C10: each adapter's hit list is an order-preserving filter of the
upstream items (the filtered list is a sublist of the upstream list)
followed by per-item hit construction. -/
theorem C10_filter_order_preserved (q : PyStr) (eEls : List EpicElement)
    (iItems : List ItchItem) (sRows : List SteamRow) (aDocs : List ArchiveDoc) :
    ((search_epic_free_games q (Except.ok eEls)).hits
        = (eEls.filter (epicCodeHitCond q)).map epicToHit
      ∧ List.Sublist (eEls.filter (epicCodeHitCond q)) eEls)
    ∧ ((search_itch_free q (Except.ok iItems)).hits
        = (iItems.filter (itchCodeHitCond q)).map itchToHit
      ∧ List.Sublist (iItems.filter (itchCodeHitCond q)) iItems)
    ∧ ((search_steam_free q (Except.ok sRows)).hits
        = (sRows.filter (steamCodeHitCond q)).map steamToHit
      ∧ List.Sublist (sRows.filter (steamCodeHitCond q)) sRows)
    ∧ ((search_internet_archive q (Except.ok aDocs)).hits
        = (aDocs.filter (archiveDocCond q)).map archiveToHit
      ∧ List.Sublist (aDocs.filter (archiveDocCond q)) aDocs) :=
  ⟨⟨epicHitsLoop_eq q eEls, List.filter_sublist eEls⟩,
   ⟨itchHitsLoop_eq q iItems, List.filter_sublist iItems⟩,
   ⟨steamHitsLoop_eq q sRows, List.filter_sublist sRows⟩,
   ⟨archiveHitsLoop_eq q aDocs, List.filter_sublist aDocs⟩⟩
